import Mathlib

/-!
Shallow embedding of `supabase/functions/process-program-data/index.ts`,
the edge function that extracts research-program data from a user message
via a completion API and persists programs, deadlines, people and links
into four tables.

The handler is modelled as a pure function. External effects become
explicit parameters:
  * the environment (presence of the `OPENAI_API_KEY` credential),
  * the parsed request body (`none` models a `req.json()` throw),
  * the completion-service outcome,
  * a failure schedule `sched : Nat → Bool` deciding for each insert
    attempt (numbered globally in the order the code issues them) whether
    the store returns an error (`true` = the insert fails),
  * an initial database state.
Insert attempts are logged so that "zero child inserts are attempted" is
a statement about the model, not just about the resulting rows.
-/

namespace ProcessProgramData

/-- One entry of `extractedData.programs`. `status` is `Option` because the
code applies the JS-falsy default `program.status || 'active'`. -/
structure ExtractedProgram where
  title : String
  university : String
  description : String
  program_type : String
  status : Option String
  deriving Repr, DecidableEq

/-- One entry of `extractedData.deadlines`. -/
structure ExtractedDeadline where
  title : String
  deadline_date : String
  deadline_type : String
  description : String
  program_title : String
  deriving Repr, DecidableEq

/-- One entry of `extractedData.people`. -/
structure ExtractedPerson where
  name : String
  description : String
  linkedin_url : String
  role : String
  program_title : String
  deriving Repr, DecidableEq

/-- The parsed model output. Each field is `Option` because the code reads
`extractedData.programs || []` etc.: a missing key defaults to the empty
array. -/
structure ExtractedLink where
  title : String
  url : String
  description : String
  link_type : String
  program_title : String
  deriving Repr, DecidableEq

/-- The four arrays of `extractedData`; `none` models an absent key, which
the code replaces by `[]` via `|| []`. -/
structure ExtractedData where
  programs : Option (List ExtractedProgram)
  deadlines : Option (List ExtractedDeadline)
  people : Option (List ExtractedPerson)
  links : Option (List ExtractedLink)
  deriving Repr, DecidableEq

/-- `x || []` on an optional array. -/
def orEmpty {α : Type} : Option (List α) → List α
  | none => []
  | some xs => xs

/-- JS `program.status || 'active'`: `undefined` and the empty string are
falsy. -/
def statusOrActive : Option String → String
  | none => "active"
  | some s => if s = "" then "active" else s

/-- A row of `research_programs` as returned by `.insert(...).select().single()`. -/
structure ProgramRow where
  id : Nat
  user_id : String
  title : String
  university : String
  description : String
  program_type : String
  status : String
  deriving Repr, DecidableEq

/-- A row of `program_deadlines`. -/
structure DeadlineRow where
  id : Nat
  program_id : Nat
  title : String
  deadline_date : String
  deadline_type : String
  description : String
  deriving Repr, DecidableEq

/-- A row of `program_people`. -/
structure PersonRow where
  id : Nat
  program_id : Nat
  name : String
  description : String
  linkedin_url : String
  role : String
  deriving Repr, DecidableEq

/-- A row of `program_links`. -/
structure LinkRow where
  id : Nat
  program_id : Nat
  title : String
  url : String
  description : String
  link_type : String
  deriving Repr, DecidableEq

/-- The four tables an insert can target, for the attempt log. -/
inductive Table where
  | research_programs
  | program_deadlines
  | program_people
  | program_links
  deriving Repr, DecidableEq

/-- Database state: the four tables, a counter of insert attempts issued so
far (indexing into the failure schedule), the next fresh row id, and a log
of every insert attempt in order. -/
structure DBState where
  attempts : Nat
  nextId : Nat
  log : List Table
  programs : List ProgramRow
  deadlines : List DeadlineRow
  people : List PersonRow
  links : List LinkRow
  deriving Repr, DecidableEq

/-- The `results` object the handler accumulates and returns. -/
structure Results where
  programs : List ProgramRow
  deadlines : List DeadlineRow
  people : List PersonRow
  links : List LinkRow
  rawResponse : String
  deriving Repr, DecidableEq

/-- One insert into `research_programs` (lines 119-130 of the source):
logs the attempt, consults the failure schedule, and on success appends the
row (with a fresh id) and returns it. -/
def insertProgram (sched : Nat → Bool) (userId : String) (p : ExtractedProgram)
    (st : DBState) : DBState × Option ProgramRow :=
  let n := st.attempts
  let st1 := { st with attempts := n + 1, log := st.log ++ [Table.research_programs] }
  if sched n then (st1, none)
  else
    let row : ProgramRow :=
      { id := st1.nextId, user_id := userId, title := p.title,
        university := p.university, description := p.description,
        program_type := p.program_type, status := statusOrActive p.status }
    ({ st1 with nextId := st1.nextId + 1, programs := st1.programs ++ [row] },
     some row)

/-- One insert into `program_deadlines` (lines 142-152). -/
def insertDeadline (sched : Nat → Bool) (pid : Nat) (d : ExtractedDeadline)
    (st : DBState) : DBState × Option DeadlineRow :=
  let n := st.attempts
  let st1 := { st with attempts := n + 1, log := st.log ++ [Table.program_deadlines] }
  if sched n then (st1, none)
  else
    let row : DeadlineRow :=
      { id := st1.nextId, program_id := pid, title := d.title,
        deadline_date := d.deadline_date, deadline_type := d.deadline_type,
        description := d.description }
    ({ st1 with nextId := st1.nextId + 1, deadlines := st1.deadlines ++ [row] },
     some row)

/-- One insert into `program_people` (lines 163-173). -/
def insertPerson (sched : Nat → Bool) (pid : Nat) (p : ExtractedPerson)
    (st : DBState) : DBState × Option PersonRow :=
  let n := st.attempts
  let st1 := { st with attempts := n + 1, log := st.log ++ [Table.program_people] }
  if sched n then (st1, none)
  else
    let row : PersonRow :=
      { id := st1.nextId, program_id := pid, name := p.name,
        description := p.description, linkedin_url := p.linkedin_url,
        role := p.role }
    ({ st1 with nextId := st1.nextId + 1, people := st1.people ++ [row] },
     some row)

/-- One insert into `program_links` (lines 184-194). -/
def insertLink (sched : Nat → Bool) (pid : Nat) (l : ExtractedLink)
    (st : DBState) : DBState × Option LinkRow :=
  let n := st.attempts
  let st1 := { st with attempts := n + 1, log := st.log ++ [Table.program_links] }
  if sched n then (st1, none)
  else
    let row : LinkRow :=
      { id := st1.nextId, program_id := pid, title := l.title,
        url := l.url, description := l.description, link_type := l.link_type }
    ({ st1 with nextId := st1.nextId + 1, links := st1.links ++ [row] },
     some row)

/-- The deadline loop (lines 140-158): scan the full array, attempt an
insert for every entry whose `program_title` equals the program's title,
and collect (`results.deadlines.push`) the rows of the successful inserts. -/
def processDeadlines (sched : Nat → Bool) (title : String) (pid : Nat) :
    List ExtractedDeadline → DBState → DBState × List DeadlineRow
  | [], st => (st, [])
  | d :: ds, st =>
    if d.program_title = title then
      let (st1, r) := insertDeadline sched pid d st
      let (st2, rows) := processDeadlines sched title pid ds st1
      match r with
      | some row => (st2, row :: rows)
      | none => (st2, rows)
    else
      processDeadlines sched title pid ds st

/-- The people loop (lines 161-179). -/
def processPeople (sched : Nat → Bool) (title : String) (pid : Nat) :
    List ExtractedPerson → DBState → DBState × List PersonRow
  | [], st => (st, [])
  | p :: ps, st =>
    if p.program_title = title then
      let (st1, r) := insertPerson sched pid p st
      let (st2, rows) := processPeople sched title pid ps st1
      match r with
      | some row => (st2, row :: rows)
      | none => (st2, rows)
    else
      processPeople sched title pid ps st

/-- The links loop (lines 182-200). -/
def processLinks (sched : Nat → Bool) (title : String) (pid : Nat) :
    List ExtractedLink → DBState → DBState × List LinkRow
  | [], st => (st, [])
  | l :: ls, st =>
    if l.program_title = title then
      let (st1, r) := insertLink sched pid l st
      let (st2, rows) := processLinks sched title pid ls st1
      match r with
      | some row => (st2, row :: rows)
      | none => (st2, rows)
    else
      processLinks sched title pid ls st

/-- Per-program contribution to `results`: the program row (if its insert
succeeded) and the successfully inserted children. -/
structure StepResult where
  program : Option ProgramRow
  deadlines : List DeadlineRow
  people : List PersonRow
  links : List LinkRow
  deriving Repr, DecidableEq

/-- One iteration of the outer `for (const program of ...)` loop
(lines 118-201): insert the program; on error `continue` (no child is
attempted); on success run the three child loops against the full child
arrays. -/
def processProgram (sched : Nat → Bool) (userId : String) (data : ExtractedData)
    (p : ExtractedProgram) (st : DBState) : DBState × StepResult :=
  let r1 := insertProgram sched userId p st
  match r1.2 with
  | none => (r1.1, ⟨none, [], [], []⟩)
  | some row =>
    let r2 := processDeadlines sched p.title row.id (orEmpty data.deadlines) r1.1
    let r3 := processPeople sched p.title row.id (orEmpty data.people) r2.1
    let r4 := processLinks sched p.title row.id (orEmpty data.links) r3.1
    (r4.1, ⟨some row, r2.2, r3.2, r4.2⟩)

/-- The outer loop over `extractedData.programs || []`, accumulating the
four `results` arrays in push order. -/
def processPrograms (sched : Nat → Bool) (userId : String) (data : ExtractedData) :
    List ExtractedProgram → DBState → DBState × Results
  | [], st => (st, ⟨[], [], [], [], ""⟩)
  | p :: ps, st =>
    let r1 := processProgram sched userId data p st
    let r2 := processPrograms sched userId data ps r1.1
    (r2.1,
     ⟨(match (r1.2).program with
       | some row => row :: (r2.2).programs
       | none => (r2.2).programs),
      (r1.2).deadlines ++ (r2.2).deadlines,
      (r1.2).people ++ (r2.2).people,
      (r1.2).links ++ (r2.2).links,
      (r2.2).rawResponse⟩)

/-- The whole persistence phase (lines 109-201): initialize `results` with
the raw completion text and run the program loop. -/
def persistAll (sched : Nat → Bool) (userId : String) (data : ExtractedData)
    (rawResponse : String) (st : DBState) : DBState × Results :=
  let r := processPrograms sched userId data (orEmpty data.programs) st
  (r.1, { r.2 with rawResponse := rawResponse })

/-- The schedule under which every insert succeeds. -/
def allSucceed : Nat → Bool := fun _ => false

/-- Number of successful outcomes among `m` consecutive insert attempts
starting at attempt index `b` under schedule `sched`. -/
def countSuccessFrom (sched : Nat → Bool) : Nat → Nat → Nat
  | _, 0 => 0
  | b, m + 1 => (if sched b then 0 else 1) + countSuccessFrom sched (b + 1) m

/-- The environment variables the handler reads. The two supabase values are
read with `!` (presence assumed); only the completion credential is checked. -/
structure Env where
  openAIApiKey : Option String
  supabaseUrl : String
  supabaseServiceKey : String

/-- The parsed request body `{ message, userId }`; a missing key is `none`. -/
structure RequestBody where
  message : Option String
  userId : Option String

/-- JS falsiness of an optional string: `undefined`/`null` or `""`. -/
def falsyStr : Option String → Bool
  | none => true
  | some s => s = ""

/-- Outcome of the completion-service call. `httpError` models
`!response.ok`; on `ok`, `content` is `aiResponse.choices[0].message.content`
and `parsed` is `none` when `JSON.parse(content)` throws. -/
inductive AIOutcome where
  | httpError (body : String)
  | ok (content : String) (parsed : Option ExtractedData)

/-- The response the handler builds: the pre-flight answer (lines 11-13),
the success body (lines 203-205, JSON of `results`, implicit status 200),
or the catch branch body `{ error, success: false }` with status 500
(lines 207-216). -/
inductive HandlerResponse where
  | preflight
  | success (results : Results)
  | failure (error : String)
  deriving DecidableEq

/-- The HTTP status code of each response: a `Response` with no explicit
status is 200; the catch branch sets 500. -/
def HandlerResponse.status : HandlerResponse → Nat
  | .preflight => 200
  | .success _ => 200
  | .failure _ => 500

/-- Full observable outcome of one invocation: response, final database
state, and whether the completion service was called. -/
structure Outcome where
  response : HandlerResponse
  db : DBState
  aiCalled : Bool

/-- The `serve` handler (lines 10-217). `body = none` models `req.json()`
throwing. The credential guard is the JS-falsy test `!openAIApiKey`, which
rejects both an unset variable and the empty string. Each guard `throw`s
into the catch branch, which returns the error message with status 500 and
leaves the database untouched. -/
def handle (env : Env) (method : String) (body : Option RequestBody)
    (ai : AIOutcome) (sched : Nat → Bool) (db : DBState) : Outcome :=
  if method = "OPTIONS" then ⟨.preflight, db, false⟩
  else
    match body with
    | none => ⟨.failure "Unexpected end of JSON input", db, false⟩
    | some b =>
      if falsyStr b.message || falsyStr b.userId then
        ⟨.failure "Message and userId are required", db, false⟩
      else
        if falsyStr env.openAIApiKey then
          ⟨.failure "OpenAI API key not configured", db, false⟩
        else
          match ai with
          | .httpError _ => ⟨.failure "Failed to process message", db, true⟩
          | .ok content parsed =>
            match parsed with
            | none => ⟨.failure "JSON parse error", db, true⟩
            | some data =>
              let r := persistAll sched ((b.userId).getD "") data content db
              ⟨.success r.2, r.1, true⟩

/-- The deadlines entries matching a program title (exact string equality). -/
def matchingDeadlines (title : String) (ds : List ExtractedDeadline) : List ExtractedDeadline :=
  ds.filter (fun d => decide (d.program_title = title))

/-- The people entries matching a program title. -/
def matchingPeople (title : String) (ps : List ExtractedPerson) : List ExtractedPerson :=
  ps.filter (fun p => decide (p.program_title = title))

/-- The link entries matching a program title. -/
def matchingLinks (title : String) (ls : List ExtractedLink) : List ExtractedLink :=
  ls.filter (fun l => decide (l.program_title = title))

/-- The `research_programs` row produced by a successful program insert:
the payload of lines 121-128 plus the id assigned at insertion. -/
def programRowOf (userId : String) (p : ExtractedProgram) (st : DBState) : ProgramRow :=
  { id := st.nextId, user_id := userId, title := p.title, university := p.university,
    description := p.description, program_type := p.program_type,
    status := statusOrActive p.status }

/-- An empty database. -/
def emptyDB : DBState := ⟨0, 0, [], [], [], [], []⟩

/-- A schedule failing exactly the second insert attempt (index 1). -/
def failSecond : Nat → Bool := fun n => n == 1

/-- Sample extracted program used in concrete instantiations. -/
def sampleProgram : ExtractedProgram := ⟨"X", "MIT", "desc", "PhD", none⟩

/-- Sample extracted deadline referencing `sampleProgram` by title. -/
def sampleDeadline : ExtractedDeadline := ⟨"App due", "2025-12-01", "application", "", "X"⟩

/-- Sample extracted person referencing `sampleProgram` by title. -/
def samplePerson : ExtractedPerson := ⟨"Ada", "advisor", "", "professor", "X"⟩

/-- Sample extracted link referencing `sampleProgram` by title. -/
def sampleLink : ExtractedLink := ⟨"Site", "https://example.org", "", "website", "X"⟩

/-- Sample extracted graph: one program, one matching child of each kind. -/
def sampleData : ExtractedData :=
  ⟨some [sampleProgram], some [sampleDeadline], some [samplePerson], some [sampleLink]⟩

/-- A second sample deadline also referencing `sampleProgram` by title. -/
def sampleDeadline2 : ExtractedDeadline := ⟨"Second", "2026-01-01", "project", "", "X"⟩

/-- Sample graph with two matching deadlines, one person and one link. -/
def sampleData2 : ExtractedData :=
  ⟨some [sampleProgram], some [sampleDeadline, sampleDeadline2],
   some [samplePerson], some [sampleLink]⟩

/-- Sample graph with an empty programs array but non-empty child arrays. -/
def dataEmptyProg : ExtractedData :=
  ⟨some [], some [sampleDeadline], some [samplePerson], some [sampleLink]⟩

/-- Environment lacking the completion credential. -/
def envNoKey : Env := ⟨none, "http://store", "service-key"⟩

/-- Environment with the completion credential set. -/
def envOk : Env := ⟨some "sk-abc", "http://store", "service-key"⟩

/-- A valid request body. -/
def bOk : RequestBody := ⟨some "hello", some "u1"⟩

/-- A request body lacking the message. -/
def bBad : RequestBody := ⟨none, some "u1"⟩

lemma processDeadlines_attempts (sched : Nat → Bool) (title : String) (pid : Nat)
    (ds : List ExtractedDeadline) : ∀ st : DBState,
    (processDeadlines sched title pid ds st).1.attempts
      = st.attempts + (matchingDeadlines title ds).length := by
  induction ds with
  | nil => intro st; simp [processDeadlines, matchingDeadlines]
  | cons d ds ih =>
    intro st
    by_cases hm : d.program_title = title
    · by_cases hf : sched st.attempts
      · simp [processDeadlines, insertDeadline, hm, hf, ih, matchingDeadlines]
        omega
      · simp [processDeadlines, insertDeadline, hm, hf, ih, matchingDeadlines]
        omega
    · simp [processDeadlines, hm, ih, matchingDeadlines]

lemma processDeadlines_log (sched : Nat → Bool) (title : String) (pid : Nat)
    (ds : List ExtractedDeadline) : ∀ st : DBState,
    (processDeadlines sched title pid ds st).1.log
      = st.log ++ List.replicate (matchingDeadlines title ds).length Table.program_deadlines := by
  induction ds with
  | nil => intro st; simp [processDeadlines, matchingDeadlines]
  | cons d ds ih =>
    intro st
    by_cases hm : d.program_title = title
    · by_cases hf : sched st.attempts
      · simp [processDeadlines, insertDeadline, hm, hf, ih, matchingDeadlines,
          List.replicate_succ]
      · simp [processDeadlines, insertDeadline, hm, hf, ih, matchingDeadlines,
          List.replicate_succ]
    · simp [processDeadlines, hm, ih, matchingDeadlines]

lemma processDeadlines_programs (sched : Nat → Bool) (title : String) (pid : Nat)
    (ds : List ExtractedDeadline) : ∀ st : DBState,
    (processDeadlines sched title pid ds st).1.programs = st.programs := by
  induction ds with
  | nil => intro st; simp [processDeadlines]
  | cons d ds ih =>
    intro st
    by_cases hm : d.program_title = title
    · by_cases hf : sched st.attempts
      · simp [processDeadlines, insertDeadline, hm, hf, ih]
      · simp [processDeadlines, insertDeadline, hm, hf, ih]
    · simp [processDeadlines, hm, ih]

lemma processDeadlines_people (sched : Nat → Bool) (title : String) (pid : Nat)
    (ds : List ExtractedDeadline) : ∀ st : DBState,
    (processDeadlines sched title pid ds st).1.people = st.people := by
  induction ds with
  | nil => intro st; simp [processDeadlines]
  | cons d ds ih =>
    intro st
    by_cases hm : d.program_title = title
    · by_cases hf : sched st.attempts
      · simp [processDeadlines, insertDeadline, hm, hf, ih]
      · simp [processDeadlines, insertDeadline, hm, hf, ih]
    · simp [processDeadlines, hm, ih]

lemma processDeadlines_links (sched : Nat → Bool) (title : String) (pid : Nat)
    (ds : List ExtractedDeadline) : ∀ st : DBState,
    (processDeadlines sched title pid ds st).1.links = st.links := by
  induction ds with
  | nil => intro st; simp [processDeadlines]
  | cons d ds ih =>
    intro st
    by_cases hm : d.program_title = title
    · by_cases hf : sched st.attempts
      · simp [processDeadlines, insertDeadline, hm, hf, ih]
      · simp [processDeadlines, insertDeadline, hm, hf, ih]
    · simp [processDeadlines, hm, ih]

lemma processDeadlines_table (sched : Nat → Bool) (title : String) (pid : Nat)
    (ds : List ExtractedDeadline) : ∀ st : DBState,
    (processDeadlines sched title pid ds st).1.deadlines
      = st.deadlines ++ (processDeadlines sched title pid ds st).2 := by
  induction ds with
  | nil => intro st; simp [processDeadlines]
  | cons d ds ih =>
    intro st
    by_cases hm : d.program_title = title
    · by_cases hf : sched st.attempts
      · simp [processDeadlines, insertDeadline, hm, hf, ih]
      · simp [processDeadlines, insertDeadline, hm, hf, ih]
    · simp [processDeadlines, hm, ih]

lemma processDeadlines_rows_length (sched : Nat → Bool) (title : String) (pid : Nat)
    (ds : List ExtractedDeadline) : ∀ st : DBState,
    (processDeadlines sched title pid ds st).2.length
      = countSuccessFrom sched st.attempts (matchingDeadlines title ds).length := by
  induction ds with
  | nil => intro st; simp [processDeadlines, matchingDeadlines, countSuccessFrom]
  | cons d ds ih =>
    intro st
    by_cases hm : d.program_title = title
    · by_cases hf : sched st.attempts
      · simp [processDeadlines, insertDeadline, hm, hf, ih, matchingDeadlines,
          countSuccessFrom]
      · simp [processDeadlines, insertDeadline, hm, hf, ih, matchingDeadlines,
          countSuccessFrom]
        omega
    · simp [processDeadlines, hm, ih, matchingDeadlines]

lemma processDeadlines_rows_mem (sched : Nat → Bool) (title : String) (pid : Nat)
    (ds : List ExtractedDeadline) : ∀ (st : DBState)
    (r : DeadlineRow), r ∈ (processDeadlines sched title pid ds st).2 →
    r.program_id = pid ∧ ∃ d ∈ ds, d.program_title = title ∧ r.title = d.title
      ∧ r.deadline_date = d.deadline_date ∧ r.deadline_type = d.deadline_type
      ∧ r.description = d.description := by
  induction ds with
  | nil => intro st r hr; simp [processDeadlines] at hr
  | cons d ds ih =>
    intro st r hr
    by_cases hm : d.program_title = title
    · by_cases hf : sched st.attempts
      · simp [processDeadlines, insertDeadline, hm, hf] at hr
        rcases ih _ r hr with ⟨h1, d', hd', h2⟩
        exact ⟨h1, d', List.mem_cons_of_mem _ hd', h2⟩
      · simp [processDeadlines, insertDeadline, hm, hf] at hr
        rcases hr with h | h
        · subst h
          exact ⟨rfl, d, List.mem_cons_self _ _, hm, rfl, rfl, rfl, rfl⟩
        · rcases ih _ r h with ⟨h1, d', hd', h2⟩
          exact ⟨h1, d', List.mem_cons_of_mem _ hd', h2⟩
    · simp [processDeadlines, hm] at hr
      rcases ih _ r hr with ⟨h1, d', hd', h2⟩
      exact ⟨h1, d', List.mem_cons_of_mem _ hd', h2⟩

lemma processPeople_attempts (sched : Nat → Bool) (title : String) (pid : Nat)
    (ps : List ExtractedPerson) : ∀ st : DBState,
    (processPeople sched title pid ps st).1.attempts
      = st.attempts + (matchingPeople title ps).length := by
  induction ps with
  | nil => intro st; simp [processPeople, matchingPeople]
  | cons p ps ih =>
    intro st
    by_cases hm : p.program_title = title
    · by_cases hf : sched st.attempts
      · simp [processPeople, insertPerson, hm, hf, ih, matchingPeople]
        omega
      · simp [processPeople, insertPerson, hm, hf, ih, matchingPeople]
        omega
    · simp [processPeople, hm, ih, matchingPeople]

lemma processPeople_log (sched : Nat → Bool) (title : String) (pid : Nat)
    (ps : List ExtractedPerson) : ∀ st : DBState,
    (processPeople sched title pid ps st).1.log
      = st.log ++ List.replicate (matchingPeople title ps).length Table.program_people := by
  induction ps with
  | nil => intro st; simp [processPeople, matchingPeople]
  | cons p ps ih =>
    intro st
    by_cases hm : p.program_title = title
    · by_cases hf : sched st.attempts
      · simp [processPeople, insertPerson, hm, hf, ih, matchingPeople,
          List.replicate_succ]
      · simp [processPeople, insertPerson, hm, hf, ih, matchingPeople,
          List.replicate_succ]
    · simp [processPeople, hm, ih, matchingPeople]

lemma processPeople_programs (sched : Nat → Bool) (title : String) (pid : Nat)
    (ps : List ExtractedPerson) : ∀ st : DBState,
    (processPeople sched title pid ps st).1.programs = st.programs := by
  induction ps with
  | nil => intro st; simp [processPeople]
  | cons p ps ih =>
    intro st
    by_cases hm : p.program_title = title
    · by_cases hf : sched st.attempts
      · simp [processPeople, insertPerson, hm, hf, ih]
      · simp [processPeople, insertPerson, hm, hf, ih]
    · simp [processPeople, hm, ih]

lemma processPeople_deadlines (sched : Nat → Bool) (title : String) (pid : Nat)
    (ps : List ExtractedPerson) : ∀ st : DBState,
    (processPeople sched title pid ps st).1.deadlines = st.deadlines := by
  induction ps with
  | nil => intro st; simp [processPeople]
  | cons p ps ih =>
    intro st
    by_cases hm : p.program_title = title
    · by_cases hf : sched st.attempts
      · simp [processPeople, insertPerson, hm, hf, ih]
      · simp [processPeople, insertPerson, hm, hf, ih]
    · simp [processPeople, hm, ih]

lemma processPeople_links (sched : Nat → Bool) (title : String) (pid : Nat)
    (ps : List ExtractedPerson) : ∀ st : DBState,
    (processPeople sched title pid ps st).1.links = st.links := by
  induction ps with
  | nil => intro st; simp [processPeople]
  | cons p ps ih =>
    intro st
    by_cases hm : p.program_title = title
    · by_cases hf : sched st.attempts
      · simp [processPeople, insertPerson, hm, hf, ih]
      · simp [processPeople, insertPerson, hm, hf, ih]
    · simp [processPeople, hm, ih]

lemma processPeople_table (sched : Nat → Bool) (title : String) (pid : Nat)
    (ps : List ExtractedPerson) : ∀ st : DBState,
    (processPeople sched title pid ps st).1.people
      = st.people ++ (processPeople sched title pid ps st).2 := by
  induction ps with
  | nil => intro st; simp [processPeople]
  | cons p ps ih =>
    intro st
    by_cases hm : p.program_title = title
    · by_cases hf : sched st.attempts
      · simp [processPeople, insertPerson, hm, hf, ih]
      · simp [processPeople, insertPerson, hm, hf, ih]
    · simp [processPeople, hm, ih]

lemma processPeople_rows_length (sched : Nat → Bool) (title : String) (pid : Nat)
    (ps : List ExtractedPerson) : ∀ st : DBState,
    (processPeople sched title pid ps st).2.length
      = countSuccessFrom sched st.attempts (matchingPeople title ps).length := by
  induction ps with
  | nil => intro st; simp [processPeople, matchingPeople, countSuccessFrom]
  | cons p ps ih =>
    intro st
    by_cases hm : p.program_title = title
    · by_cases hf : sched st.attempts
      · simp [processPeople, insertPerson, hm, hf, ih, matchingPeople,
          countSuccessFrom]
      · simp [processPeople, insertPerson, hm, hf, ih, matchingPeople,
          countSuccessFrom]
        omega
    · simp [processPeople, hm, ih, matchingPeople]

lemma processPeople_rows_mem (sched : Nat → Bool) (title : String) (pid : Nat)
    (ps : List ExtractedPerson) : ∀ (st : DBState)
    (r : PersonRow), r ∈ (processPeople sched title pid ps st).2 →
    r.program_id = pid ∧ ∃ p ∈ ps, p.program_title = title ∧ r.name = p.name
      ∧ r.description = p.description ∧ r.linkedin_url = p.linkedin_url
      ∧ r.role = p.role := by
  induction ps with
  | nil => intro st r hr; simp [processPeople] at hr
  | cons p ps ih =>
    intro st r hr
    by_cases hm : p.program_title = title
    · by_cases hf : sched st.attempts
      · simp [processPeople, insertPerson, hm, hf] at hr
        rcases ih _ r hr with ⟨h1, p', hp', h2⟩
        exact ⟨h1, p', List.mem_cons_of_mem _ hp', h2⟩
      · simp [processPeople, insertPerson, hm, hf] at hr
        rcases hr with h | h
        · subst h
          exact ⟨rfl, p, List.mem_cons_self _ _, hm, rfl, rfl, rfl, rfl⟩
        · rcases ih _ r h with ⟨h1, p', hp', h2⟩
          exact ⟨h1, p', List.mem_cons_of_mem _ hp', h2⟩
    · simp [processPeople, hm] at hr
      rcases ih _ r hr with ⟨h1, p', hp', h2⟩
      exact ⟨h1, p', List.mem_cons_of_mem _ hp', h2⟩

lemma processLinks_attempts (sched : Nat → Bool) (title : String) (pid : Nat)
    (ls : List ExtractedLink) : ∀ st : DBState,
    (processLinks sched title pid ls st).1.attempts
      = st.attempts + (matchingLinks title ls).length := by
  induction ls with
  | nil => intro st; simp [processLinks, matchingLinks]
  | cons l ls ih =>
    intro st
    by_cases hm : l.program_title = title
    · by_cases hf : sched st.attempts
      · simp [processLinks, insertLink, hm, hf, ih, matchingLinks]
        omega
      · simp [processLinks, insertLink, hm, hf, ih, matchingLinks]
        omega
    · simp [processLinks, hm, ih, matchingLinks]

lemma processLinks_log (sched : Nat → Bool) (title : String) (pid : Nat)
    (ls : List ExtractedLink) : ∀ st : DBState,
    (processLinks sched title pid ls st).1.log
      = st.log ++ List.replicate (matchingLinks title ls).length Table.program_links := by
  induction ls with
  | nil => intro st; simp [processLinks, matchingLinks]
  | cons l ls ih =>
    intro st
    by_cases hm : l.program_title = title
    · by_cases hf : sched st.attempts
      · simp [processLinks, insertLink, hm, hf, ih, matchingLinks,
          List.replicate_succ]
      · simp [processLinks, insertLink, hm, hf, ih, matchingLinks,
          List.replicate_succ]
    · simp [processLinks, hm, ih, matchingLinks]

lemma processLinks_programs (sched : Nat → Bool) (title : String) (pid : Nat)
    (ls : List ExtractedLink) : ∀ st : DBState,
    (processLinks sched title pid ls st).1.programs = st.programs := by
  induction ls with
  | nil => intro st; simp [processLinks]
  | cons l ls ih =>
    intro st
    by_cases hm : l.program_title = title
    · by_cases hf : sched st.attempts
      · simp [processLinks, insertLink, hm, hf, ih]
      · simp [processLinks, insertLink, hm, hf, ih]
    · simp [processLinks, hm, ih]

lemma processLinks_deadlines (sched : Nat → Bool) (title : String) (pid : Nat)
    (ls : List ExtractedLink) : ∀ st : DBState,
    (processLinks sched title pid ls st).1.deadlines = st.deadlines := by
  induction ls with
  | nil => intro st; simp [processLinks]
  | cons l ls ih =>
    intro st
    by_cases hm : l.program_title = title
    · by_cases hf : sched st.attempts
      · simp [processLinks, insertLink, hm, hf, ih]
      · simp [processLinks, insertLink, hm, hf, ih]
    · simp [processLinks, hm, ih]

lemma processLinks_people (sched : Nat → Bool) (title : String) (pid : Nat)
    (ls : List ExtractedLink) : ∀ st : DBState,
    (processLinks sched title pid ls st).1.people = st.people := by
  induction ls with
  | nil => intro st; simp [processLinks]
  | cons l ls ih =>
    intro st
    by_cases hm : l.program_title = title
    · by_cases hf : sched st.attempts
      · simp [processLinks, insertLink, hm, hf, ih]
      · simp [processLinks, insertLink, hm, hf, ih]
    · simp [processLinks, hm, ih]

lemma processLinks_table (sched : Nat → Bool) (title : String) (pid : Nat)
    (ls : List ExtractedLink) : ∀ st : DBState,
    (processLinks sched title pid ls st).1.links
      = st.links ++ (processLinks sched title pid ls st).2 := by
  induction ls with
  | nil => intro st; simp [processLinks]
  | cons l ls ih =>
    intro st
    by_cases hm : l.program_title = title
    · by_cases hf : sched st.attempts
      · simp [processLinks, insertLink, hm, hf, ih]
      · simp [processLinks, insertLink, hm, hf, ih]
    · simp [processLinks, hm, ih]

lemma processLinks_rows_length (sched : Nat → Bool) (title : String) (pid : Nat)
    (ls : List ExtractedLink) : ∀ st : DBState,
    (processLinks sched title pid ls st).2.length
      = countSuccessFrom sched st.attempts (matchingLinks title ls).length := by
  induction ls with
  | nil => intro st; simp [processLinks, matchingLinks, countSuccessFrom]
  | cons l ls ih =>
    intro st
    by_cases hm : l.program_title = title
    · by_cases hf : sched st.attempts
      · simp [processLinks, insertLink, hm, hf, ih, matchingLinks,
          countSuccessFrom]
      · simp [processLinks, insertLink, hm, hf, ih, matchingLinks,
          countSuccessFrom]
        omega
    · simp [processLinks, hm, ih, matchingLinks]

lemma processLinks_rows_mem (sched : Nat → Bool) (title : String) (pid : Nat)
    (ls : List ExtractedLink) : ∀ (st : DBState)
    (r : LinkRow), r ∈ (processLinks sched title pid ls st).2 →
    r.program_id = pid ∧ ∃ l ∈ ls, l.program_title = title ∧ r.title = l.title
      ∧ r.url = l.url ∧ r.description = l.description ∧ r.link_type = l.link_type := by
  induction ls with
  | nil => intro st r hr; simp [processLinks] at hr
  | cons l ls ih =>
    intro st r hr
    by_cases hm : l.program_title = title
    · by_cases hf : sched st.attempts
      · simp [processLinks, insertLink, hm, hf] at hr
        rcases ih _ r hr with ⟨h1, l', hl', h2⟩
        exact ⟨h1, l', List.mem_cons_of_mem _ hl', h2⟩
      · simp [processLinks, insertLink, hm, hf] at hr
        rcases hr with h | h
        · subst h
          exact ⟨rfl, l, List.mem_cons_self _ _, hm, rfl, rfl, rfl, rfl⟩
        · rcases ih _ r h with ⟨h1, l', hl', h2⟩
          exact ⟨h1, l', List.mem_cons_of_mem _ hl', h2⟩
    · simp [processLinks, hm] at hr
      rcases ih _ r hr with ⟨h1, l', hl', h2⟩
      exact ⟨h1, l', List.mem_cons_of_mem _ hl', h2⟩

lemma insertProgram_fail (sched : Nat → Bool) (userId : String) (p : ExtractedProgram)
    (st : DBState) (hf : sched st.attempts = true) :
    insertProgram sched userId p st
      = ({ st with
            attempts := st.attempts + 1
            log := st.log ++ [Table.research_programs] }, none) := by
  simp [insertProgram, hf]

lemma insertProgram_success (sched : Nat → Bool) (userId : String) (p : ExtractedProgram)
    (st : DBState) (hf : sched st.attempts = false) :
    insertProgram sched userId p st
      = ({ st with
            attempts := st.attempts + 1
            log := st.log ++ [Table.research_programs]
            nextId := st.nextId + 1
            programs := st.programs ++ [programRowOf userId p st] },
         some (programRowOf userId p st)) := by
  simp [insertProgram, programRowOf, hf]

lemma processProgram_fail (sched : Nat → Bool) (userId : String) (data : ExtractedData)
    (p : ExtractedProgram) (st : DBState) (hf : sched st.attempts = true) :
    processProgram sched userId data p st
      = ({ st with
            attempts := st.attempts + 1
            log := st.log ++ [Table.research_programs] }, ⟨none, [], [], []⟩) := by
  simp [processProgram, insertProgram_fail sched userId p st hf]

lemma processProgram_success (sched : Nat → Bool) (userId : String) (data : ExtractedData)
    (p : ExtractedProgram) (st : DBState) (hf : sched st.attempts = false) :
    processProgram sched userId data p st
      = (let st1 : DBState := { st with
            attempts := st.attempts + 1
            log := st.log ++ [Table.research_programs]
            nextId := st.nextId + 1
            programs := st.programs ++ [programRowOf userId p st] }
         let r2 := processDeadlines sched p.title st.nextId (orEmpty data.deadlines) st1
         let r3 := processPeople sched p.title st.nextId (orEmpty data.people) r2.1
         let r4 := processLinks sched p.title st.nextId (orEmpty data.links) r3.1
         (r4.1, ⟨some (programRowOf userId p st), r2.2, r3.2, r4.2⟩)) := by
  simp [processProgram, insertProgram_success sched userId p st hf, programRowOf]

lemma processProgram_table_programs (sched : Nat → Bool) (userId : String)
    (data : ExtractedData) (p : ExtractedProgram) (st : DBState) :
    (processProgram sched userId data p st).1.programs
      = st.programs ++ ((processProgram sched userId data p st).2.program).toList := by
  by_cases hf : sched st.attempts
  · simp [processProgram_fail sched userId data p st hf]
  · simp [processProgram_success sched userId data p st (by simpa using hf),
      processLinks_programs, processPeople_programs, processDeadlines_programs]

lemma processProgram_table_deadlines (sched : Nat → Bool) (userId : String)
    (data : ExtractedData) (p : ExtractedProgram) (st : DBState) :
    (processProgram sched userId data p st).1.deadlines
      = st.deadlines ++ (processProgram sched userId data p st).2.deadlines := by
  by_cases hf : sched st.attempts
  · simp [processProgram_fail sched userId data p st hf]
  · simp [processProgram_success sched userId data p st (by simpa using hf),
      processLinks_deadlines, processPeople_deadlines, processDeadlines_table]

lemma processProgram_table_people (sched : Nat → Bool) (userId : String)
    (data : ExtractedData) (p : ExtractedProgram) (st : DBState) :
    (processProgram sched userId data p st).1.people
      = st.people ++ (processProgram sched userId data p st).2.people := by
  by_cases hf : sched st.attempts
  · simp [processProgram_fail sched userId data p st hf]
  · simp [processProgram_success sched userId data p st (by simpa using hf),
      processLinks_people, processPeople_table, processDeadlines_people]

lemma processProgram_table_links (sched : Nat → Bool) (userId : String)
    (data : ExtractedData) (p : ExtractedProgram) (st : DBState) :
    (processProgram sched userId data p st).1.links
      = st.links ++ (processProgram sched userId data p st).2.links := by
  by_cases hf : sched st.attempts
  · simp [processProgram_fail sched userId data p st hf]
  · simp [processProgram_success sched userId data p st (by simpa using hf),
      processLinks_table, processPeople_links, processDeadlines_links]

lemma processPrograms_table_programs (sched : Nat → Bool) (userId : String)
    (data : ExtractedData) (ps : List ExtractedProgram) : ∀ st : DBState,
    (processPrograms sched userId data ps st).1.programs
      = st.programs ++ (processPrograms sched userId data ps st).2.programs := by
  induction ps with
  | nil => intro st; simp [processPrograms]
  | cons p ps ih =>
    intro st
    have hp := processProgram_table_programs sched userId data p st
    cases hpr : (processProgram sched userId data p st).2.program with
    | none =>
      simp only [processPrograms, ih]
      rw [hp, hpr]
      simp [hpr]
    | some row =>
      simp only [processPrograms, ih]
      rw [hp, hpr]
      simp [hpr]

lemma processPrograms_table_deadlines (sched : Nat → Bool) (userId : String)
    (data : ExtractedData) (ps : List ExtractedProgram) : ∀ st : DBState,
    (processPrograms sched userId data ps st).1.deadlines
      = st.deadlines ++ (processPrograms sched userId data ps st).2.deadlines := by
  induction ps with
  | nil => intro st; simp [processPrograms]
  | cons p ps ih =>
    intro st
    have hp := processProgram_table_deadlines sched userId data p st
    simp only [processPrograms, ih]
    rw [hp]
    simp

lemma processPrograms_table_people (sched : Nat → Bool) (userId : String)
    (data : ExtractedData) (ps : List ExtractedProgram) : ∀ st : DBState,
    (processPrograms sched userId data ps st).1.people
      = st.people ++ (processPrograms sched userId data ps st).2.people := by
  induction ps with
  | nil => intro st; simp [processPrograms]
  | cons p ps ih =>
    intro st
    have hp := processProgram_table_people sched userId data p st
    simp only [processPrograms, ih]
    rw [hp]
    simp

lemma processPrograms_table_links (sched : Nat → Bool) (userId : String)
    (data : ExtractedData) (ps : List ExtractedProgram) : ∀ st : DBState,
    (processPrograms sched userId data ps st).1.links
      = st.links ++ (processPrograms sched userId data ps st).2.links := by
  induction ps with
  | nil => intro st; simp [processPrograms]
  | cons p ps ih =>
    intro st
    have hp := processProgram_table_links sched userId data p st
    simp only [processPrograms, ih]
    rw [hp]
    simp

lemma processPrograms_cons (sched : Nat → Bool) (userId : String) (data : ExtractedData)
    (p : ExtractedProgram) (ps : List ExtractedProgram) (st : DBState) :
    processPrograms sched userId data (p :: ps) st
      = (let r1 := processProgram sched userId data p st
         let r2 := processPrograms sched userId data ps r1.1
         (r2.1,
          ⟨(match (r1.2).program with
            | some row => row :: (r2.2).programs
            | none => (r2.2).programs),
           (r1.2).deadlines ++ (r2.2).deadlines,
           (r1.2).people ++ (r2.2).people,
           (r1.2).links ++ (r2.2).links,
           (r2.2).rawResponse⟩)) := rfl

lemma processProgram_step_deadlines_mem (sched : Nat → Bool) (userId : String)
    (data : ExtractedData) (p : ExtractedProgram) (st : DBState) :
    ∀ r ∈ (processProgram sched userId data p st).2.deadlines,
    ∃ row, (processProgram sched userId data p st).2.program = some row
      ∧ r.program_id = row.id ∧ row.title = p.title
      ∧ ∃ d ∈ orEmpty data.deadlines, d.program_title = p.title ∧ r.title = d.title := by
  by_cases hf : sched st.attempts
  · simp [processProgram_fail sched userId data p st hf]
  · intro r hr
    rw [processProgram_success sched userId data p st (by simpa using hf)] at hr ⊢
    simp only at hr ⊢
    rcases processDeadlines_rows_mem sched p.title st.nextId
        (orEmpty data.deadlines) _ r hr with ⟨h1, d, hd, hdt, hrt, _⟩
    exact ⟨programRowOf userId p st, rfl, by simpa [programRowOf] using h1,
      by simp [programRowOf], d, hd, hdt, hrt⟩

lemma processProgram_step_people_mem (sched : Nat → Bool) (userId : String)
    (data : ExtractedData) (p : ExtractedProgram) (st : DBState) :
    ∀ r ∈ (processProgram sched userId data p st).2.people,
    ∃ row, (processProgram sched userId data p st).2.program = some row
      ∧ r.program_id = row.id ∧ row.title = p.title
      ∧ ∃ q ∈ orEmpty data.people, q.program_title = p.title ∧ r.name = q.name := by
  by_cases hf : sched st.attempts
  · simp [processProgram_fail sched userId data p st hf]
  · intro r hr
    rw [processProgram_success sched userId data p st (by simpa using hf)] at hr ⊢
    simp only at hr ⊢
    rcases processPeople_rows_mem sched p.title st.nextId
        (orEmpty data.people) _ r hr with ⟨h1, q, hq, hqt, hrn, _⟩
    exact ⟨programRowOf userId p st, rfl, by simpa [programRowOf] using h1,
      by simp [programRowOf], q, hq, hqt, hrn⟩

lemma processProgram_step_links_mem (sched : Nat → Bool) (userId : String)
    (data : ExtractedData) (p : ExtractedProgram) (st : DBState) :
    ∀ r ∈ (processProgram sched userId data p st).2.links,
    ∃ row, (processProgram sched userId data p st).2.program = some row
      ∧ r.program_id = row.id ∧ row.title = p.title
      ∧ ∃ l ∈ orEmpty data.links, l.program_title = p.title ∧ r.title = l.title := by
  by_cases hf : sched st.attempts
  · simp [processProgram_fail sched userId data p st hf]
  · intro r hr
    rw [processProgram_success sched userId data p st (by simpa using hf)] at hr ⊢
    simp only at hr ⊢
    rcases processLinks_rows_mem sched p.title st.nextId
        (orEmpty data.links) _ r hr with ⟨h1, l, hl, hlt, hrt, _⟩
    exact ⟨programRowOf userId p st, rfl, by simpa [programRowOf] using h1,
      by simp [programRowOf], l, hl, hlt, hrt⟩

lemma processPrograms_no_orphans (sched : Nat → Bool) (userId : String)
    (data : ExtractedData) (ps : List ExtractedProgram) : ∀ st : DBState,
    (∀ r ∈ (processPrograms sched userId data ps st).2.deadlines,
       ∃ q ∈ (processPrograms sched userId data ps st).2.programs,
         r.program_id = q.id
           ∧ ∃ d ∈ orEmpty data.deadlines, d.program_title = q.title ∧ r.title = d.title)
    ∧ (∀ r ∈ (processPrograms sched userId data ps st).2.people,
       ∃ q ∈ (processPrograms sched userId data ps st).2.programs,
         r.program_id = q.id
           ∧ ∃ c ∈ orEmpty data.people, c.program_title = q.title ∧ r.name = c.name)
    ∧ (∀ r ∈ (processPrograms sched userId data ps st).2.links,
       ∃ q ∈ (processPrograms sched userId data ps st).2.programs,
         r.program_id = q.id
           ∧ ∃ l ∈ orEmpty data.links, l.program_title = q.title ∧ r.title = l.title) := by
  induction ps with
  | nil => intro st; simp [processPrograms]
  | cons p ps ih =>
    intro st
    rw [processPrograms_cons]
    simp only []
    refine ⟨?_, ?_, ?_⟩
    · intro r hr
      rcases List.mem_append.mp hr with h | h
      · rcases processProgram_step_deadlines_mem sched userId data p st r h with
          ⟨row, hrow, hid, hrt, d, hd, hdt, hr2⟩
        refine ⟨row, ?_, hid, d, hd, by rw [hdt, ← hrt], hr2⟩
        rw [hrow]
        exact List.mem_cons_self _ _
      · rcases (ih _).1 r h with ⟨q, hq, hrest⟩
        refine ⟨q, ?_, hrest⟩
        cases hpr : (processProgram sched userId data p st).2.program with
        | none => simpa [hpr] using hq
        | some row => simp [hpr]; exact Or.inr hq
    · intro r hr
      rcases List.mem_append.mp hr with h | h
      · rcases processProgram_step_people_mem sched userId data p st r h with
          ⟨row, hrow, hid, hrt, c, hc, hct, hr2⟩
        refine ⟨row, ?_, hid, c, hc, by rw [hct, ← hrt], hr2⟩
        rw [hrow]
        exact List.mem_cons_self _ _
      · rcases (ih _).2.1 r h with ⟨q, hq, hrest⟩
        refine ⟨q, ?_, hrest⟩
        cases hpr : (processProgram sched userId data p st).2.program with
        | none => simpa [hpr] using hq
        | some row => simp [hpr]; exact Or.inr hq
    · intro r hr
      rcases List.mem_append.mp hr with h | h
      · rcases processProgram_step_links_mem sched userId data p st r h with
          ⟨row, hrow, hid, hrt, l, hl, hlt, hr2⟩
        refine ⟨row, ?_, hid, l, hl, by rw [hlt, ← hrt], hr2⟩
        rw [hrow]
        exact List.mem_cons_self _ _
      · rcases (ih _).2.2 r h with ⟨q, hq, hrest⟩
        refine ⟨q, ?_, hrest⟩
        cases hpr : (processProgram sched userId data p st).2.program with
        | none => simpa [hpr] using hq
        | some row => simp [hpr]; exact Or.inr hq

lemma countSuccessFrom_allSucceed (b m : Nat) : countSuccessFrom allSucceed b m = m := by
  induction m generalizing b with
  | zero => simp [countSuccessFrom]
  | succ m ih => simp [countSuccessFrom, allSucceed, ih]; omega

lemma processProgram_allSucceed_dlen (userId : String) (data : ExtractedData)
    (p : ExtractedProgram) (st : DBState) :
    (processProgram allSucceed userId data p st).2.deadlines.length
      = (matchingDeadlines p.title (orEmpty data.deadlines)).length := by
  rw [processProgram_success allSucceed userId data p st rfl]
  simp only []
  rw [processDeadlines_rows_length]
  exact countSuccessFrom_allSucceed _ _

lemma processProgram_allSucceed_plen2 (userId : String) (data : ExtractedData)
    (p : ExtractedProgram) (st : DBState) :
    (processProgram allSucceed userId data p st).2.people.length
      = (matchingPeople p.title (orEmpty data.people)).length := by
  rw [processProgram_success allSucceed userId data p st rfl]
  simp only []
  rw [processPeople_rows_length]
  exact countSuccessFrom_allSucceed _ _

lemma processProgram_allSucceed_llen (userId : String) (data : ExtractedData)
    (p : ExtractedProgram) (st : DBState) :
    (processProgram allSucceed userId data p st).2.links.length
      = (matchingLinks p.title (orEmpty data.links)).length := by
  rw [processProgram_success allSucceed userId data p st rfl]
  simp only []
  rw [processLinks_rows_length]
  exact countSuccessFrom_allSucceed _ _

lemma processPrograms_allSucceed_dlen (userId : String) (data : ExtractedData)
    (ps : List ExtractedProgram) : ∀ st : DBState,
    (processPrograms allSucceed userId data ps st).2.deadlines.length
      = (ps.map (fun p => (matchingDeadlines p.title (orEmpty data.deadlines)).length)).sum := by
  induction ps with
  | nil => intro st; simp [processPrograms]
  | cons p ps ih =>
    intro st
    rw [processPrograms_cons]
    simp only [List.map_cons, List.sum_cons]
    rw [List.length_append, processProgram_allSucceed_dlen, ih]

lemma processPrograms_allSucceed_plen2 (userId : String) (data : ExtractedData)
    (ps : List ExtractedProgram) : ∀ st : DBState,
    (processPrograms allSucceed userId data ps st).2.people.length
      = (ps.map (fun p => (matchingPeople p.title (orEmpty data.people)).length)).sum := by
  induction ps with
  | nil => intro st; simp [processPrograms]
  | cons p ps ih =>
    intro st
    rw [processPrograms_cons]
    simp only [List.map_cons, List.sum_cons]
    rw [List.length_append, processProgram_allSucceed_plen2, ih]

lemma processPrograms_allSucceed_llen (userId : String) (data : ExtractedData)
    (ps : List ExtractedProgram) : ∀ st : DBState,
    (processPrograms allSucceed userId data ps st).2.links.length
      = (ps.map (fun p => (matchingLinks p.title (orEmpty data.links)).length)).sum := by
  induction ps with
  | nil => intro st; simp [processPrograms]
  | cons p ps ih =>
    intro st
    rw [processPrograms_cons]
    simp only [List.map_cons, List.sum_cons]
    rw [List.length_append, processProgram_allSucceed_llen, ih]

lemma processPrograms_allSucceed_programs_length (userId : String) (data : ExtractedData)
    (ps : List ExtractedProgram) : ∀ st : DBState,
    (processPrograms allSucceed userId data ps st).2.programs.length = ps.length := by
  induction ps with
  | nil => intro st; simp [processPrograms]
  | cons p ps ih =>
    intro st
    rw [processPrograms_cons]
    simp only []
    rw [processProgram_success allSucceed userId data p st rfl]
    simp only [List.length_cons]
    rw [ih]

lemma persistAll_fst (sched : Nat → Bool) (userId : String) (data : ExtractedData)
    (raw : String) (st : DBState) :
    (persistAll sched userId data raw st).1
      = (processPrograms sched userId data (orEmpty data.programs) st).1 := rfl

lemma persistAll_snd_programs (sched : Nat → Bool) (userId : String) (data : ExtractedData)
    (raw : String) (st : DBState) :
    (persistAll sched userId data raw st).2.programs
      = (processPrograms sched userId data (orEmpty data.programs) st).2.programs := rfl

lemma persistAll_snd_deadlines (sched : Nat → Bool) (userId : String) (data : ExtractedData)
    (raw : String) (st : DBState) :
    (persistAll sched userId data raw st).2.deadlines
      = (processPrograms sched userId data (orEmpty data.programs) st).2.deadlines := rfl

lemma persistAll_snd_people (sched : Nat → Bool) (userId : String) (data : ExtractedData)
    (raw : String) (st : DBState) :
    (persistAll sched userId data raw st).2.people
      = (processPrograms sched userId data (orEmpty data.programs) st).2.people := rfl

lemma persistAll_snd_links (sched : Nat → Bool) (userId : String) (data : ExtractedData)
    (raw : String) (st : DBState) :
    (persistAll sched userId data raw st).2.links
      = (processPrograms sched userId data (orEmpty data.programs) st).2.links := rfl

/-- Claim C1: no-orphan invariant. For every input graph, schedule of insert
outcomes and initial store, the store delta of each child table is exactly
the returned child rows, and every persisted deadline/person/link row
references (by `program_id`) a program row that was itself successfully
persisted in the same invocation and whose title the child entry matched. -/
theorem claim_C1_no_orphans (sched : Nat → Bool) (userId raw : String)
    (data : ExtractedData) (st : DBState) :
    ((persistAll sched userId data raw st).1.programs
        = st.programs ++ (persistAll sched userId data raw st).2.programs)
    ∧ ((persistAll sched userId data raw st).1.deadlines
        = st.deadlines ++ (persistAll sched userId data raw st).2.deadlines)
    ∧ ((persistAll sched userId data raw st).1.people
        = st.people ++ (persistAll sched userId data raw st).2.people)
    ∧ ((persistAll sched userId data raw st).1.links
        = st.links ++ (persistAll sched userId data raw st).2.links)
    ∧ (∀ r ∈ (persistAll sched userId data raw st).2.deadlines,
        ∃ q ∈ (persistAll sched userId data raw st).2.programs,
          r.program_id = q.id
            ∧ ∃ d ∈ orEmpty data.deadlines, d.program_title = q.title ∧ r.title = d.title)
    ∧ (∀ r ∈ (persistAll sched userId data raw st).2.people,
        ∃ q ∈ (persistAll sched userId data raw st).2.programs,
          r.program_id = q.id
            ∧ ∃ c ∈ orEmpty data.people, c.program_title = q.title ∧ r.name = c.name)
    ∧ (∀ r ∈ (persistAll sched userId data raw st).2.links,
        ∃ q ∈ (persistAll sched userId data raw st).2.programs,
          r.program_id = q.id
            ∧ ∃ l ∈ orEmpty data.links, l.program_title = q.title ∧ r.title = l.title) := by
  rw [persistAll_fst, persistAll_snd_programs, persistAll_snd_deadlines,
    persistAll_snd_people, persistAll_snd_links]
  have ho := processPrograms_no_orphans sched userId data (orEmpty data.programs) st
  exact ⟨processPrograms_table_programs sched userId data (orEmpty data.programs) st,
    processPrograms_table_deadlines sched userId data (orEmpty data.programs) st,
    processPrograms_table_people sched userId data (orEmpty data.programs) st,
    processPrograms_table_links sched userId data (orEmpty data.programs) st,
    ho.1, ho.2.1, ho.2.2⟩

/-- Witness for C1: in the sample run, the persisted deadline row references
a program row persisted in the same invocation with a matching title. -/
theorem claim_C1_no_orphans_witness :
    ∃ q ∈ (persistAll allSucceed "u1" sampleData "raw" emptyDB).2.programs,
      (⟨1, 0, "App due", "2025-12-01", "application", ""⟩ : DeadlineRow).program_id = q.id
        ∧ ∃ d ∈ orEmpty sampleData.deadlines,
            d.program_title = q.title
              ∧ (⟨1, 0, "App due", "2025-12-01", "application", ""⟩ : DeadlineRow).title
                  = d.title :=
  (claim_C1_no_orphans allSucceed "u1" "raw" sampleData emptyDB).2.2.2.2.1 _ (by decide)

/-- Claim C2: parent-failure atomicity. When the program insert fails, the
only effect of that loop iteration is the single failed attempt on
`research_programs`: no child insert is attempted, no row of any table is
added, the step contributes nothing to the results, and processing moves to
the next program from exactly that state. -/
theorem claim_C2_parent_failure_atomicity (sched : Nat → Bool) (userId : String)
    (data : ExtractedData) (p : ExtractedProgram) (ps : List ExtractedProgram)
    (st : DBState) (hf : sched st.attempts = true) :
    processProgram sched userId data p st
      = ({ st with
            attempts := st.attempts + 1
            log := st.log ++ [Table.research_programs] }, ⟨none, [], [], []⟩)
    ∧ processPrograms sched userId data (p :: ps) st
      = processPrograms sched userId data ps
          { st with
             attempts := st.attempts + 1
             log := st.log ++ [Table.research_programs] } := by
  refine ⟨processProgram_fail sched userId data p st hf, ?_⟩
  rw [processPrograms_cons, processProgram_fail sched userId data p st hf]
  simp

/-- Witness for C2: concrete failing program insert attempts no child. -/
theorem claim_C2_parent_failure_atomicity_witness :
    (fun _ : Nat => true) emptyDB.attempts = true
    ∧ processProgram (fun _ : Nat => true) "u1" sampleData sampleProgram emptyDB
        = ({ emptyDB with
              attempts := emptyDB.attempts + 1
              log := emptyDB.log ++ [Table.research_programs] }, ⟨none, [], [], []⟩) :=
  ⟨rfl, (claim_C2_parent_failure_atomicity (fun _ : Nat => true) "u1" sampleData
      sampleProgram [] emptyDB rfl).1⟩

/-- Claim C3: child-failure isolation. Once the program insert succeeds, the
sequence of insert attempts is fixed by the input alone — one attempt per
matching deadline, person and link, whatever the child outcomes are — so one
child failing never suppresses a sibling attempt of the same or another
kind; the parent row stays in the result, and the returned child lists keep
exactly the children whose own insert succeeded. -/
theorem claim_C3_child_failure_isolation (sched : Nat → Bool) (userId : String)
    (data : ExtractedData) (p : ExtractedProgram) (st : DBState)
    (hf : sched st.attempts = false) :
    ((processProgram sched userId data p st).1.log
       = st.log ++ [Table.research_programs]
           ++ List.replicate (matchingDeadlines p.title (orEmpty data.deadlines)).length
               Table.program_deadlines
           ++ List.replicate (matchingPeople p.title (orEmpty data.people)).length
               Table.program_people
           ++ List.replicate (matchingLinks p.title (orEmpty data.links)).length
               Table.program_links)
    ∧ (processProgram sched userId data p st).2.program = some (programRowOf userId p st)
    ∧ (processProgram sched userId data p st).2.deadlines.length
        = countSuccessFrom sched (st.attempts + 1)
            (matchingDeadlines p.title (orEmpty data.deadlines)).length
    ∧ (processProgram sched userId data p st).2.people.length
        = countSuccessFrom sched
            (st.attempts + 1 + (matchingDeadlines p.title (orEmpty data.deadlines)).length)
            (matchingPeople p.title (orEmpty data.people)).length
    ∧ (processProgram sched userId data p st).2.links.length
        = countSuccessFrom sched
            (st.attempts + 1 + (matchingDeadlines p.title (orEmpty data.deadlines)).length
               + (matchingPeople p.title (orEmpty data.people)).length)
            (matchingLinks p.title (orEmpty data.links)).length := by
  rw [processProgram_success sched userId data p st hf]
  refine ⟨?_, ?_, ?_, ?_, ?_⟩
  · simp only []
    rw [processLinks_log, processPeople_log, processDeadlines_log]
  · rfl
  · simp only []
    rw [processDeadlines_rows_length]
  · simp only []
    rw [processPeople_rows_length, processDeadlines_attempts]
  · simp only []
    rw [processLinks_rows_length, processPeople_attempts, processDeadlines_attempts]

/-- Witness for C3: a run in which the first of two matching deadline
inserts fails still attempts and keeps the second. -/
theorem claim_C3_child_failure_isolation_witness :
    failSecond emptyDB.attempts = false
    ∧ (processProgram failSecond "u1" sampleData2 sampleProgram emptyDB).2.deadlines.length
        = countSuccessFrom failSecond (emptyDB.attempts + 1)
            (matchingDeadlines sampleProgram.title (orEmpty sampleData2.deadlines)).length :=
  ⟨by decide, (claim_C3_child_failure_isolation failSecond "u1" sampleData2
      sampleProgram emptyDB (by decide)).2.2.1⟩

/-- Counterexample to C4: two programs titled "X" and one deadline whose
`program_title` is "X" yield two persisted deadline rows, one per program
(ids 0 and 2), not a single row attached to the first match only. -/
theorem claim_C4_counterexample :
    (persistAll allSucceed "u1"
        ⟨some [⟨"X", "U", "", "PhD", none⟩, ⟨"X", "V", "", "PhD", none⟩],
         some [⟨"D", "2025-01-01", "application", "", "X"⟩], none, none⟩
        "raw" emptyDB).2.deadlines.length = 2
    ∧ ((persistAll allSucceed "u1"
        ⟨some [⟨"X", "U", "", "PhD", none⟩, ⟨"X", "V", "", "PhD", none⟩],
         some [⟨"D", "2025-01-01", "application", "", "X"⟩], none, none⟩
        "raw" emptyDB).2.deadlines.map (fun r => r.program_id)) = [0, 2]
    ∧ ((persistAll allSucceed "u1"
        ⟨some [⟨"X", "U", "", "PhD", none⟩, ⟨"X", "V", "", "PhD", none⟩],
         some [⟨"D", "2025-01-01", "application", "", "X"⟩], none, none⟩
        "raw" emptyDB).2.programs.map (fun r => r.id)) = [0, 2]
    ∧ ¬ (persistAll allSucceed "u1"
        ⟨some [⟨"X", "U", "", "PhD", none⟩, ⟨"X", "V", "", "PhD", none⟩],
         some [⟨"D", "2025-01-01", "application", "", "X"⟩], none, none⟩
        "raw" emptyDB).2.deadlines.length = 1 := by
  decide

/-- Amended C4: a child entry whose `program_title` matches a duplicated
title is attached once to every successfully inserted program bearing that
title, in array order — the total persisted child rows are the sum over
programs of their matching children, not a single first-match association. -/
theorem claim_C4_duplicate_title_fanout (userId raw : String) (data : ExtractedData)
    (st : DBState) :
    (persistAll allSucceed userId data raw st).2.deadlines.length
      = ((orEmpty data.programs).map
          (fun p => (matchingDeadlines p.title (orEmpty data.deadlines)).length)).sum
    ∧ (persistAll allSucceed userId data raw st).2.people.length
      = ((orEmpty data.programs).map
          (fun p => (matchingPeople p.title (orEmpty data.people)).length)).sum
    ∧ (persistAll allSucceed userId data raw st).2.links.length
      = ((orEmpty data.programs).map
          (fun p => (matchingLinks p.title (orEmpty data.links)).length)).sum := by
  rw [persistAll_snd_deadlines, persistAll_snd_people, persistAll_snd_links]
  exact ⟨processPrograms_allSucceed_dlen userId data (orEmpty data.programs) st,
    processPrograms_allSucceed_plen2 userId data (orEmpty data.programs) st,
    processPrograms_allSucceed_llen userId data (orEmpty data.programs) st⟩

/-- Claim C5: round-trip. With exactly one program titled "X" and exactly
one deadline whose `program_title` is "X", and both inserts succeeding, the
persister returns exactly one program row and one deadline row whose
`program_id` equals the id assigned to the program, and appends exactly
those two rows to the store. -/
theorem claim_C5_round_trip (sched : Nat → Bool) (userId raw : String)
    (p : ExtractedProgram) (d : ExtractedDeadline) (st : DBState)
    (hp : p.title = "X") (hd : d.program_title = "X")
    (h0 : sched st.attempts = false) (h1 : sched (st.attempts + 1) = false) :
    (persistAll sched userId ⟨some [p], some [d], none, none⟩ raw st).2.programs
        = [programRowOf userId p st]
    ∧ ∃ dr : DeadlineRow,
        (persistAll sched userId ⟨some [p], some [d], none, none⟩ raw st).2.deadlines = [dr]
        ∧ dr.program_id = (programRowOf userId p st).id
        ∧ (persistAll sched userId ⟨some [p], some [d], none, none⟩ raw st).1.programs
            = st.programs ++ [programRowOf userId p st]
        ∧ (persistAll sched userId ⟨some [p], some [d], none, none⟩ raw st).1.deadlines
            = st.deadlines ++ [dr] := by
  refine ⟨?_, ⟨st.nextId + 1, st.nextId, d.title, d.deadline_date, d.deadline_type,
      d.description⟩, ?_, ?_, ?_, ?_⟩ <;>
    simp [persistAll, processPrograms, processProgram, insertProgram, processDeadlines,
      insertDeadline, processPeople, processLinks, orEmpty, h0, h1, hp, hd, programRowOf]

/-- Witness for C5: the round-trip at the sample program and deadline. -/
theorem claim_C5_round_trip_witness :
    sampleProgram.title = "X" ∧ sampleDeadline.program_title = "X"
    ∧ allSucceed emptyDB.attempts = false ∧ allSucceed (emptyDB.attempts + 1) = false
    ∧ (persistAll allSucceed "u1" ⟨some [sampleProgram], some [sampleDeadline], none, none⟩
        "raw" emptyDB).2.programs = [programRowOf "u1" sampleProgram emptyDB] :=
  ⟨rfl, rfl, rfl, rfl,
    (claim_C5_round_trip allSucceed "u1" "raw" sampleProgram sampleDeadline emptyDB
      rfl rfl rfl rfl).1⟩

/-- Claim C6: missing-credential precedence. Without `OPENAI_API_KEY`, a
well-formed request fails with the configuration error message and status
500, the database is returned untouched (zero rows written, no attempt
logged) and the completion service is never called. -/
theorem claim_C6_missing_credential (env : Env) (method : String) (b : RequestBody)
    (ai : AIOutcome) (sched : Nat → Bool) (db : DBState)
    (hm : method ≠ "OPTIONS") (hkey : env.openAIApiKey = none)
    (hmsg : falsyStr b.message = false) (huid : falsyStr b.userId = false) :
    handle env method (some b) ai sched db
      = ⟨HandlerResponse.failure "OpenAI API key not configured", db, false⟩
    ∧ (handle env method (some b) ai sched db).response.status = 500 := by
  have hkey2 : falsyStr env.openAIApiKey = true := by rw [hkey]; rfl
  constructor <;> simp [handle, hm, hkey2, hmsg, huid, HandlerResponse.status]

/-- Witness for C6: concrete invocation without the credential. -/
theorem claim_C6_missing_credential_witness :
    envNoKey.openAIApiKey = none
    ∧ handle envNoKey "POST" (some bOk) (AIOutcome.httpError "") allSucceed emptyDB
        = ⟨HandlerResponse.failure "OpenAI API key not configured", emptyDB, false⟩ :=
  ⟨rfl, (claim_C6_missing_credential envNoKey "POST" bOk (AIOutcome.httpError "")
      allSucceed emptyDB (by decide) rfl (by decide) (by decide)).1⟩

/-- Claim C7: empty extraction. If the model's JSON parses and its
`programs` array is empty or missing, the invocation succeeds with all four
result arrays empty and the database completely untouched — even when the
`deadlines`, `people` or `links` arrays of the model output are non-empty. -/
theorem claim_C7_empty_extraction (env : Env) (method : String) (b : RequestBody)
    (ai : AIOutcome) (sched : Nat → Bool) (db : DBState) (content : String)
    (data : ExtractedData)
    (hm : method ≠ "OPTIONS") (hkey : falsyStr env.openAIApiKey = false)
    (hmsg : falsyStr b.message = false) (huid : falsyStr b.userId = false)
    (hai : ai = AIOutcome.ok content (some data))
    (hprog : data.programs = none ∨ data.programs = some []) :
    handle env method (some b) ai sched db
      = ⟨HandlerResponse.success ⟨[], [], [], [], content⟩, db, true⟩ := by
  subst hai
  rcases hprog with h | h <;>
    simp [handle, hm, hkey, hmsg, huid, persistAll, processPrograms, orEmpty, h]

/-- Witness for C7: empty programs array with non-empty child arrays. -/
theorem claim_C7_empty_extraction_witness :
    dataEmptyProg.programs = some []
    ∧ handle envOk "POST" (some bOk)
        (AIOutcome.ok "raw-json" (some dataEmptyProg)) allSucceed emptyDB
      = ⟨HandlerResponse.success ⟨[], [], [], [], "raw-json"⟩, emptyDB, true⟩ :=
  ⟨rfl, claim_C7_empty_extraction envOk "POST" bOk
    (AIOutcome.ok "raw-json" (some dataEmptyProg)) allSucceed emptyDB
    "raw-json" dataEmptyProg (by decide) (by decide) (by decide) (by decide) rfl
    (Or.inr rfl)⟩

lemma persistAll_programs_length (userId : String) (data : ExtractedData) (raw : String)
    (st : DBState) :
    (persistAll allSucceed userId data raw st).1.programs.length
      = st.programs.length + (orEmpty data.programs).length := by
  rw [persistAll_fst, processPrograms_table_programs, List.length_append,
    processPrograms_allSucceed_programs_length]

/-- Claim C8: non-idempotence. Persisting the same extracted graph twice,
with every insert succeeding, appends one fresh program row per input
program on each invocation — the store ends with two rows per program and
no deduplication or existence check ever suppresses an insert. -/
theorem claim_C8_non_idempotence (userId : String) (data : ExtractedData)
    (raw : String) (st : DBState) :
    (persistAll allSucceed userId data raw st).1.programs.length
      = st.programs.length + (orEmpty data.programs).length
    ∧ (persistAll allSucceed userId data raw
         (persistAll allSucceed userId data raw st).1).1.programs.length
      = st.programs.length + 2 * (orEmpty data.programs).length := by
  refine ⟨persistAll_programs_length userId data raw st, ?_⟩
  rw [persistAll_programs_length, persistAll_programs_length]
  omega

/-- Claim C9: response contract. Every non-preflight invocation answers
either 200 with a success body or 500 with a failure body; the status never
depends on which inserts fail (partial persistence failures are invisible in
the status); and on the fully valid path the 200 body is exactly the four
persisted sequences together with the raw completion text. -/
theorem claim_C9_response_contract (env : Env) (method : String)
    (body : Option RequestBody) (ai : AIOutcome) (sched : Nat → Bool) (db : DBState)
    (b : RequestBody) (content : String) (data : ExtractedData)
    (hm : method ≠ "OPTIONS") :
    (((handle env method body ai sched db).response.status = 200
        ∧ ∃ r, (handle env method body ai sched db).response = HandlerResponse.success r)
      ∨ ((handle env method body ai sched db).response.status = 500
        ∧ ∃ e, (handle env method body ai sched db).response = HandlerResponse.failure e))
    ∧ (∀ sched2 : Nat → Bool,
        (handle env method body ai sched2 db).response.status
          = (handle env method body ai sched db).response.status)
    ∧ (body = some b → ai = AIOutcome.ok content (some data)
        → falsyStr b.message = false → falsyStr b.userId = false
        → falsyStr env.openAIApiKey = false
        → (handle env method body ai sched db).response
            = HandlerResponse.success (persistAll sched ((b.userId).getD "") data content db).2
          ∧ (persistAll sched ((b.userId).getD "") data content db).2.rawResponse = content) := by
  refine ⟨?_, ?_, ?_⟩
  · cases body with
    | none => simp [handle, hm, HandlerResponse.status]
    | some b2 =>
      by_cases hv : (falsyStr b2.message || falsyStr b2.userId) = true
      · simp [handle, hm, hv, HandlerResponse.status]
      · by_cases hk : falsyStr env.openAIApiKey = true
        · simp [handle, hm, hv, hk, HandlerResponse.status]
        · cases ai with
          | httpError s => simp [handle, hm, hv, hk, HandlerResponse.status]
          | ok c parsed =>
            cases parsed <;> simp [handle, hm, hv, hk, HandlerResponse.status]
  · intro sched2
    cases body with
    | none => simp [handle, hm]
    | some b2 =>
      by_cases hv : (falsyStr b2.message || falsyStr b2.userId) = true
      · simp [handle, hm, hv]
      · by_cases hk : falsyStr env.openAIApiKey = true
        · simp [handle, hm, hv, hk]
        · cases ai with
          | httpError s => simp [handle, hm, hv, hk]
          | ok c parsed =>
            cases parsed <;> simp [handle, hm, hv, hk, HandlerResponse.status]
  · intro hb hai hmsg huid hkey
    subst hb
    subst hai
    refine ⟨?_, rfl⟩
    simp [handle, hm, hmsg, huid, hkey]

/-- Witness for C9: the fully valid path returns the persisted sequences. -/
theorem claim_C9_response_contract_witness :
    (handle envOk "POST" (some bOk) (AIOutcome.ok "raw-json" (some sampleData))
        allSucceed emptyDB).response
      = HandlerResponse.success
          (persistAll allSucceed ((bOk.userId).getD "") sampleData "raw-json" emptyDB).2 :=
  ((claim_C9_response_contract envOk "POST" (some bOk)
      (AIOutcome.ok "raw-json" (some sampleData)) allSucceed emptyDB bOk "raw-json"
      sampleData (by decide)).2.2 rfl rfl (by decide) (by decide) (by decide)).1

/-- Claim C10: implicit input validation. A request whose body lacks a
message or a userId (absent or empty) is rejected with the required-fields
error, status 500, before the completion-service call and before any store
write. -/
theorem claim_C10_input_validation (env : Env) (method : String) (b : RequestBody)
    (ai : AIOutcome) (sched : Nat → Bool) (db : DBState)
    (hm : method ≠ "OPTIONS")
    (hv : (falsyStr b.message || falsyStr b.userId) = true) :
    handle env method (some b) ai sched db
      = ⟨HandlerResponse.failure "Message and userId are required", db, false⟩
    ∧ (handle env method (some b) ai sched db).response.status = 500 := by
  constructor <;> simp [handle, hm, hv, HandlerResponse.status]

/-- Witness for C10: a body missing the message is rejected untouched. -/
theorem claim_C10_input_validation_witness :
    (falsyStr bBad.message || falsyStr bBad.userId) = true
    ∧ handle envOk "POST" (some bBad) (AIOutcome.httpError "") allSucceed emptyDB
        = ⟨HandlerResponse.failure "Message and userId are required", emptyDB, false⟩ :=
  ⟨by decide, (claim_C10_input_validation envOk "POST" bBad (AIOutcome.httpError "")
      allSucceed emptyDB (by decide) (by decide)).1⟩

end ProcessProgramData
